import Mathlib

/-
Verification of the lowering core of the cairo_native compiler backend.

Part I embeds `src/src/libfuncs/enum.rs` (the `enum_init` / `enum_match`
MLIR builders).  The layout helper `crate::types::r#enum::get_type_for_variants`
is not part of the provided sources, so it is modelled from the spec (§4.1).
Memory is modelled at bit granularity: an allocation is a function from bit
offsets to bits, and an SSA value of an aggregate type is its list of bits.

Part II embeds `src/sierra2mlir/src/libfuncs/mod.rs` (the dispatch registry
`process_libfuncs` and the individual libfunc builders).  The surrounding
`Compiler` / `Storage` declarations (compiler.rs) are not in the sources, so
the shared tables are modelled from the spec (§3) as association lists, and
`HashMap::insert` is modelled with its replace-on-collision semantics.
Rust panics (`todo!`, `unimplemented!`, `.expect`, `.unwrap`) are modelled as
`Except.error` values carrying the panic message.
-/

namespace EnumLibfuncs

/-- Round `t` up to the next multiple of `a` (the usual alignment rounding
`((t + a - 1) / a) * a` used by LLVM struct layout). -/
def roundUp (t a : Nat) : Nat := a * ((t + a - 1) / a)

/-- A bit-granular memory (one LLVM alloca): bit offset to bit. -/
def Mem : Type := Nat → Bool

/-- Read `len` bits starting at bit offset `off` (an `llvm.load`). -/
def readBits (m : Mem) (off : Nat) : Nat → List Bool
| 0 => []
| len + 1 => m off :: readBits m (off + 1) len

/-- Write the bits `bs` at bit offset `off` (an `llvm.store`); bits outside
the written range keep their previous (possibly junk) value. -/
def writeBits (m : Mem) (off : Nat) (bs : List Bool) : Mem :=
fun k => if off ≤ k ∧ k < off + bs.length then bs.getD (k - off) false else m k

/-- Little-endian encoding of `v` into `w` bits (an integer constant of an
`iw` MLIR type). -/
def encodeNat : Nat → Nat → List Bool
| 0, _ => []
| w + 1, v => (v % 2 == 1) :: encodeNat w (v / 2)

/-- Little-endian decoding of a bit list back to a natural number (reading
an integer value out of memory / out of a struct field). -/
def decodeBits : List Bool → Nat
| [] => 0
| b :: bs => (cond b 1 0) + 2 * decodeBits bs

/-- The data returned by `get_type_for_variants`: the overall enum layout
(size and alignment), the discriminant width, and the per-variant payload
(size, alignment) pairs. -/
structure VariantsInfo where
  size : Nat
  align : Nat
  tagBits : Nat
  variants : List (Nat × Nat)
deriving DecidableEq, Repr

/-- Maximum payload alignment of the variant set, with 1 (the modelled
discriminant alignment at bit granularity) as the base case. -/
def overallAlign (vs : List (Nat × Nat)) : Nat :=
vs.foldr (fun v acc => max v.2 acc) 1

/-- Maximum payload size of the variant set. -/
def maxPayloadSize (vs : List (Nat × Nat)) : Nat :=
vs.foldr (fun v acc => max v.1 acc) 0

/-- Modelled from the spec: `crate::types::r#enum::get_type_for_variants`
(absent from the provided sources).  Spec §4.1: the discriminant is the
smallest unsigned integer width representing `variants.len() - 1` (at least
one bit); overall alignment is the maximum of the discriminant alignment
(modelled as 1 at bit granularity) and the payload alignments; overall size
is the discriminant size rounded up to the overall alignment, plus the size
of the largest payload, rounded up to the overall alignment.  Each variant
is described by its payload (size, alignment). -/
def get_type_for_variants (vs : List (Nat × Nat)) : VariantsInfo :=
{ size := roundUp (roundUp (Nat.log 2 (vs.length - 1) + 1) (overallAlign vs) +
    maxPayloadSize vs) (overallAlign vs),
  align := overallAlign vs,
  tagBits := Nat.log 2 (vs.length - 1) + 1,
  variants := vs }

/-- Bit offset of the payload field (field 1) in the concrete per-variant
struct `{tag_ty, variant_tys[i]}`: the tag size rounded up to the payload
alignment (LLVM non-packed struct layout). -/
def payloadOffset (tagBits : Nat) (variantAlign : Nat) : Nat :=
roundUp tagBits variantAlign

/-- The assertion message of the `enum_match` default block
(`cf::assert(..., "Invalid enum tag.", ...)` in `build_match`). -/
def msgInvalidEnumTag : String := "Invalid enum tag."

/-- Value-level transcription of `build_init` (enum.rs lines 64-170): build
the concrete struct `{tag_ty, variant_tys[index]}` holding the tag constant
(op0) and the incoming payload (op3 inserts at field index 1), store it into
an alloca sized and aligned for the whole enum (op5, op6, the store), and
reload the buffer as the union-wide enum type (op7).  `m0` is the arbitrary
initial content of the alloca; the returned bit list is the value passed to
`helper.br(0, ...)`. -/
def build_init (vs : List (Nat × Nat)) (index : Nat) (payload : List Bool)
    (m0 : Mem) : List Bool :=
let info := get_type_for_variants vs
let v := vs.getD index (0, 0)
let m1 := writeBits m0 0 (encodeNat info.tagBits index)
let m2 := writeBits m1 (payloadOffset info.tagBits v.2) payload
readBits m2 0 info.size

/-- Outcome of executing the code emitted by `build_match` on one enum
value: either control reaches `helper.br(i, [payload])` in variant block
`i`, or the default block fails its assertion. -/
inductive MatchResult where
  | branch (successor : Nat) (payload : List Bool)
  | assertFail (msg : String)
deriving DecidableEq, Repr

/-- Value-level transcription of `build_match` (enum.rs lines 173-306):
store the incoming enum value into an alloca of the overall layout (op1 and
the entry store), extract the discriminant directly from the value (op2,
`extract_value [0]`), and switch on it over the case values
`0..variants.len()`: case `i` jumps to variant block `i`, which reinterprets
the buffer as `{tag_ty, variant_tys[i]}` (op3), reloads it (op4), extracts
the payload field (op5, `extract_value [1]`) and branches to successor `i`
with exactly that value; any other discriminant reaches the default block,
whose assertion on a false constant fails with "Invalid enum tag.".
`m0` is the arbitrary initial content of the alloca. -/
def build_match (vs : List (Nat × Nat)) (m0 : Mem) (value : List Bool) :
    MatchResult :=
let info := get_type_for_variants vs
let mem := writeBits m0 0 value
let tag := decodeBits (value.take info.tagBits)
if tag < vs.length then
  let v := vs.getD tag (0, 0)
  MatchResult.branch tag
    (readBits mem (payloadOffset info.tagBits v.2) v.1)
else MatchResult.assertFail msgInvalidEnumTag

/-- MLIR types appearing in the operations emitted by `build_match`.  The
only struct type it builds is the two-field `{tag_ty, variant_tys[i]}`, so
`structOf` takes the two field types directly. -/
inductive MTy where
  | int (w : Nat)
  | structOf (tag payload : MTy)
  | ptr (pointee : MTy)
  | payloadTy (size align : Nat)
  | enumTy
deriving DecidableEq, Repr

/-- References to SSA values inside one emitted block: a result of an
earlier operation of the same block, a result of an operation placed in the
function entry (init) block by `helper.init_block()`, or a block argument. -/
inductive ValRef where
  | opResult (i : Nat)
  | initResult (i : Nat)
  | blockArg (i : Nat)
deriving DecidableEq, Repr

/-- The MLIR operations emitted by `build_match`, as data.  `cfSwitch`
destinations are indices into the list of blocks appended by
`helper.append_block` (0 is the default block, `1 + i` is variant block
`i`), each paired with the list of values forwarded to that block.
`helperBr` is the `helper.br(successor, values, location)` terminator
branching to the libfunc's declared successor. -/
inductive MOp where
  | arithConst (value : Int) (ty : MTy)
  | llvmAlloca (align : Nat) (resultTy : MTy)
  | llvmStore (value : ValRef) (ptr : ValRef) (align : Nat)
  | llvmBitcast (operand : ValRef) (resultTy : MTy)
  | llvmLoad (ptr : ValRef) (ty : MTy)
  | extractValue (operand : ValRef) (index : Nat) (ty : MTy)
  | cfSwitch (caseValues : List Nat) (flag : ValRef)
      (defaultDest : Nat × List ValRef) (caseDests : List (Nat × List ValRef))
  | cfAssert (cond : ValRef) (msg : String)
  | llvmUnreachable
  | helperBr (successor : Nat) (values : List ValRef)
deriving DecidableEq, Repr

/-- MLIR payload type of variant `i` (one of the `variant_tys` returned by
`get_type_for_variants`), identified by its size and alignment. -/
def payload_ty (vs : List (Nat × Nat)) (i : Nat) : MTy :=
MTy.payloadTy (vs.getD i (0, 0)).1 (vs.getD i (0, 0)).2

/-- Operations of the `build_match` default block: a false constant (op3),
the failing `cf.assert` with message "Invalid enum tag.", and
`llvm.unreachable` (enum.rs lines 262-276). -/
def default_block_ops : List MOp :=
[MOp.arithConst 0 (MTy.int 1),
 MOp.cfAssert (ValRef.opResult 0) msgInvalidEnumTag,
 MOp.llvmUnreachable]

/-- Operations of variant block `i` of `build_match` (enum.rs lines
278-303): bitcast the shared buffer to a pointer to
`{tag_ty, variant_tys[i]}` (op3), load it (op4), extract field 1 — the
payload, field 0 being the discriminant — (op5), and branch to successor
`i` passing exactly that one value. -/
def variant_block_ops (vs : List (Nat × Nat)) (i : Nat) : List MOp :=
let tagTy := MTy.int (get_type_for_variants vs).tagBits
[MOp.llvmBitcast (ValRef.initResult 1)
   (MTy.ptr (MTy.structOf tagTy (payload_ty vs i))),
 MOp.llvmLoad (ValRef.opResult 0) (MTy.structOf tagTy (payload_ty vs i)),
 MOp.extractValue (ValRef.opResult 1) 1 (payload_ty vs i),
 MOp.helperBr i [ValRef.opResult 2]]

/-- The overall shape of the code emitted by `build_match`: the two
operations placed in the init block, the operations appended to the entry
block, and the blocks appended via `helper.append_block`, in append order
(default block first, then one block per variant, in declaration order). -/
structure MatchEmission where
  initOps : List MOp
  entryOps : List MOp
  appendedBlocks : List (List MOp)
deriving DecidableEq, Repr

/-- Structural transcription of `build_match` (enum.rs lines 173-306): the
init block receives the constant 1 (op0) and the alloca (op1); the entry
block stores the incoming value, extracts the discriminant (op2) and emits
the `cf.switch` whose case values are `0..variants.len()` and whose case
destinations are the variant blocks, in order, each receiving no block
arguments; the appended blocks are the default block followed by the
variant blocks. -/
def build_match_emission (vs : List (Nat × Nat)) : MatchEmission :=
let info := get_type_for_variants vs
{ initOps := [MOp.arithConst 1 (MTy.int 64),
              MOp.llvmAlloca info.align (MTy.ptr MTy.enumTy)],
  entryOps := [MOp.llvmStore (ValRef.blockArg 0) (ValRef.initResult 1)
                 info.align,
               MOp.extractValue (ValRef.blockArg 0) 0 (MTy.int info.tagBits),
               MOp.cfSwitch (List.range vs.length) (ValRef.opResult 1)
                 (0, [])
                 ((List.range vs.length).map (fun k => (k + 1, []))) ],
  appendedBlocks :=
    default_block_ops ::
      (List.range vs.length).map (fun i => variant_block_ops vs i) }

end EnumLibfuncs

namespace Sierra2Mlir

/-- A Rust panic (`todo!`, `unimplemented!`, `.expect`, `.unwrap`) raised
while a builder runs, carrying the panic message.  Panics abort the whole
lowering pass, so they are modelled as the error side of `Except`. -/
inductive Err where
  | panic (msg : String)
deriving DecidableEq, Repr

/-- `cairo_lang_sierra::program::GenericArg`, restricted to the payloads the
builders inspect: literal values, type references, and the remaining
constructors (all of which hit `todo!` arms). -/
inductive GenericArg where
  | value (v : Int)
  | type (id : Nat)
  | userType
  | userFunc
  | libfunc
deriving DecidableEq, Repr

/-- One `LibfuncDeclaration`: declaration id, generic identity
(`long_id.generic_id`), generic arguments, and the debug name (the code
unwraps `id.debug_name`, assumed present). -/
structure LibfuncDeclaration where
  id : Nat
  genericId : String
  genericArgs : List GenericArg
  debugName : String
deriving DecidableEq, Repr

/-- The MLIR type of a value manipulated by these builders: an integer type
of some bit width, or an LLVM struct type over its field types. -/
inductive MlirType where
  | intTy (w : Nat)
  | structTy (fields : List MlirType)

/-- `Type::get_width()` of melior: the bit width of an integer type. -/
def MlirType.get_width : MlirType → Option Nat
| MlirType.intTy w => some w
| MlirType.structTy _ => none

/-- Modelled from the spec: the `SierraType` of compiler.rs (absent from the
provided sources) — the spec's TypeDescriptor (§3) restricted to the shapes
these builders touch: `Simple` wraps an MLIR type, `Struct` additionally
keeps the field type descriptors (variant descriptors live in the other
component and are not needed here). -/
inductive SierraType where
  | simple (ty : MlirType)
  | structType (ty : MlirType) (fieldTypes : List SierraType)

/-- `SierraType::get_type()`: the underlying MLIR type. -/
def SierraType.get_type : SierraType → MlirType
| SierraType.simple ty => ty
| SierraType.structType ty _ => ty

/-- `SierraType::get_field_types()`: the MLIR types of the fields of a
struct type, `None` for a simple type. -/
def SierraType.get_field_types : SierraType → Option (List MlirType)
| SierraType.simple _ => none
| SierraType.structType _ fields => some (fields.map SierraType.get_type)

/-- `SierraType::get_field_sierra_types()`: the field type descriptors of a
struct type, `None` for a simple type. -/
def SierraType.get_field_sierra_types : SierraType → Option (List SierraType)
| SierraType.simple _ => none
| SierraType.structType _ fields => some fields

/-- `FunctionDef`: argument and return type descriptors of one emitted
callable, registered in the shared `functions` table. -/
structure FunctionDef where
  args : List SierraType
  return_types : List SierraType

/-- Lookup in an association-list model of a `HashMap`. -/
def mapLookup {K V : Type} [DecidableEq K] : List (K × V) → K → Option V
| [], _ => none
| (k, v) :: rest, key => if k = key then some v else mapLookup rest key

/-- `HashMap::insert`: if the key is present its value is replaced
(silently), otherwise the pair is appended. -/
def mapInsert {K V : Type} [DecidableEq K] :
    List (K × V) → K → V → List (K × V)
| [], key, val => [(key, val)]
| (k, v) :: rest, key, val =>
  if k = key then (key, val) :: rest else (k, v) :: mapInsert rest key val

/-- Modelled from the spec: the shared `Storage` of compiler.rs (absent from
the provided sources) — the type registry (keyed by the type id, the code
keys by `type_id.id.to_string()`) plus the constant tables and the
signature table (§3). -/
structure Storage where
  types : List (Nat × SierraType)
  felt_consts : List (String × Int)
  u8_consts : List (String × Int)
  u16_consts : List (String × Int)
  u32_consts : List (String × Int)
  u64_consts : List (String × Int)
  u128_consts : List (String × Int)
  functions : List (String × FunctionDef)

/-- References to SSA values inside the single block of an emitted callable:
a block argument or the result of an earlier operation of the block. -/
inductive Ref where
  | arg (i : Nat)
  | res (i : Nat)
deriving DecidableEq, Repr

/-- The four arithmetic selector values (libfuncs/mod.rs lines 14-20). -/
inductive BinaryOp where
  | Add
  | Sub
  | Mul
  | Div
deriving DecidableEq, Repr

/-- The body operations an emitted callable can contain: sign-extension,
zero-extension, the raw arithmetic ops, the `felt_modulo` helper call,
struct creation (`op_llvm_struct`) and `insertvalue`, and `op_return`. -/
inductive BodyOp where
  | sextOp (src : Ref) (toW : Nat)
  | zextOp (src : Ref) (toW : Nat)
  | arith (op : BinaryOp) (l r : Ref)
  | feltMod (src : Ref) (toW : Nat)
  | structUndef (n : Nat)
  | insertVal (target : Ref) (idx : Nat) (value : Ref)
  | returnOp (refs : List Ref)
deriving DecidableEq, Repr

/-- A runtime value of an emitted callable: an integer of width `w` whose
unsigned bit-pattern is `v` (an invariant `v < 2 ^ w` is maintained by the
operations), a struct value, or an undefined value. -/
inductive SVal where
  | int (w : Nat) (v : Nat)
  | structV (fields : List SVal)
  | undef
deriving Repr

/-- The signed value denoted by the unsigned `w`-bit pattern `v` (two's
complement reading, used by `sext` and by `felt_modulo`). -/
def sInterp (w v : Nat) : Int :=
if v < 2 ^ (w - 1) then (v : Int) else (v : Int) - (2 ^ w : Nat)

/-- The mathematical operation behind each `BinaryOp` (on unbounded
integers; `Div` is unused because its builder arm is `todo!()`). -/
def binOpDenote : BinaryOp → Int → Int → Int
| BinaryOp.Add, a, b => a + b
| BinaryOp.Sub, a, b => a - b
| BinaryOp.Mul, a, b => a * b
| BinaryOp.Div, _, _ => 0

/-- Resolve a value reference against the block arguments and the results
of the already-executed operations. -/
def lookupRef (args env : List SVal) : Ref → SVal
| Ref.arg i => args.getD i SVal.undef
| Ref.res i => env.getD i SVal.undef

/-- Evaluate one non-terminator body operation.  `p` is the field prime used
by the external `op_felt_modulo` helper (modelled from the spec: it reduces
the signed double-width value into the canonical range `[0, p)` and narrows
it to the result width).  Integer ops wrap at `2 ^ w` exactly as the target
ISA does. -/
def evalOp (p : Nat) (args env : List SVal) : BodyOp → SVal
| BodyOp.sextOp src toW =>
  match lookupRef args env src with
  | SVal.int w v => SVal.int toW (((sInterp w v) % ((2 ^ toW : Nat) : Int)).toNat)
  | _ => SVal.undef
| BodyOp.zextOp src toW =>
  match lookupRef args env src with
  | SVal.int _ v => SVal.int toW (v % 2 ^ toW)
  | _ => SVal.undef
| BodyOp.arith op l r =>
  match lookupRef args env l, lookupRef args env r with
  | SVal.int w a, SVal.int _ b =>
    SVal.int w (((binOpDenote op (a : Int) (b : Int)) % ((2 ^ w : Nat) : Int)).toNat)
  | _, _ => SVal.undef
| BodyOp.feltMod src toW =>
  match lookupRef args env src with
  | SVal.int w v => SVal.int toW (((sInterp w v) % ((p : Nat) : Int)).toNat)
  | _ => SVal.undef
| BodyOp.structUndef n => SVal.structV (List.replicate n SVal.undef)
| BodyOp.insertVal target idx value =>
  match lookupRef args env target with
  | SVal.structV fs => SVal.structV (fs.set idx (lookupRef args env value))
  | x => x
| BodyOp.returnOp _ => SVal.undef

/-- Execute a straight-line body: operations run in order, each appending
its result to the environment, until `op_return` delivers the results. -/
def evalBody (p : Nat) (args : List SVal) :
    List BodyOp → List SVal → Option (List SVal)
| [], _ => none
| op :: rest, env =>
  match op with
  | BodyOp.returnOp refs => some (refs.map (lookupRef args env))
  | _ => evalBody p args rest (env ++ [evalOp p args env op])

/-- One callable emitted into the module body (`parent_block.append_operation
(func)`): its normalized name, MLIR argument and result types, and its single
block of operations. -/
structure EmittedFunc where
  name : String
  argTys : List MlirType
  retTys : List MlirType
  body : List BodyOp

/-- The state a builder can observe and mutate: the module body receiving
emitted callables, and the shared `Storage`. -/
structure CompilerState where
  moduleFuncs : List EmittedFunc
  storage : Storage

/-- Modelled from the spec: `Compiler::normalize_func_name` (absent from the
provided sources); §6 describes it as an external deterministic,
collision-free normalization of the instance's debug name, modelled as the
identity. -/
def normalize_func_name (s : String) : String := s

/-- Message of a bare `todo!()`. -/
def msgTodo : String := "not yet implemented"

/-- Message of `todo!("invalid generic kind")` in `create_libfunc_upcast`. -/
def msgTodoInvalidGenericKind : String :=
"not yet implemented: invalid generic kind"

/-- Message of `todo!("invalid generics for libfunc `upcast`")` on the
narrowing-upcast branch. -/
def msgTodoUpcastGenerics : String :=
"not yet implemented: invalid generics for libfunc `upcast`"

/-- Message of `.expect("type to exist")` on a type-registry miss. -/
def msgTypeToExist : String := "type to exist"

/-- Message of `unimplemented!("should always be value")` in
`create_libfunc_felt_const`. -/
def msgShouldBeValue : String := "should always be value"

/-- Message of `.expect("arg should be a struct type and have field
types")` in `create_libfunc_struct_construct`. -/
def msgFieldTypes : String :=
"arg should be a struct type and have field types"

/-- Message of `.unwrap()` on a `None` value. -/
def msgUnwrapNone : String := "called Option::unwrap on a None value"

/-- Message of an out-of-bounds index into `generic_args`. -/
def msgIndexOutOfBounds : String := "index out of bounds"

/-- The repeated `match &func_decl.long_id.generic_args[0]` of
`create_libfunc_struct_construct` / `create_libfunc_store_temp` /
`create_libfunc_dup`: a `Type` argument is resolved through the type
registry (`.expect("type to exist")` on a miss), every other constructor is
a `todo!()`, and indexing an empty argument list panics. -/
def resolveTypeArg (storage : Storage) :
    Option GenericArg → Except Err SierraType
| some (GenericArg.type tid) =>
  match mapLookup storage.types tid with
  | some ty => Except.ok ty
  | none => Except.error (Err.panic msgTypeToExist)
| some _ => Except.error (Err.panic msgTodo)
| none => Except.error (Err.panic msgIndexOutOfBounds)

/-- `create_libfunc_felt_const` (mod.rs lines 98-113): read the single
literal generic argument (`unimplemented!("should always be value")`
otherwise) and record it in the `felt_consts` table under the normalized
instance name.  Nothing is emitted. -/
def create_libfunc_felt_const (decl : LibfuncDeclaration)
    (storage : Storage) : Except Err Storage :=
match decl.genericArgs with
| GenericArg.value v :: _ =>
  Except.ok { storage with
    felt_consts := mapInsert storage.felt_consts
      (normalize_func_name decl.debugName) v }
| _ :: _ => Except.error (Err.panic msgShouldBeValue)
| [] => Except.error (Err.panic msgIndexOutOfBounds)

/-- `create_libfunc_u8_const` (mod.rs lines 387-401): the slice of generic
arguments must be exactly `[Value v]` (`todo!()` otherwise); the value is
recorded in `u8_consts`.  Nothing is emitted. -/
def create_libfunc_u8_const (decl : LibfuncDeclaration)
    (storage : Storage) : Except Err Storage :=
match decl.genericArgs with
| [GenericArg.value v] =>
  Except.ok { storage with
    u8_consts := mapInsert storage.u8_consts
      (normalize_func_name decl.debugName) v }
| _ => Except.error (Err.panic msgTodo)

/-- `create_libfunc_u16_const` (mod.rs lines 403-417), as for u8. -/
def create_libfunc_u16_const (decl : LibfuncDeclaration)
    (storage : Storage) : Except Err Storage :=
match decl.genericArgs with
| [GenericArg.value v] =>
  Except.ok { storage with
    u16_consts := mapInsert storage.u16_consts
      (normalize_func_name decl.debugName) v }
| _ => Except.error (Err.panic msgTodo)

/-- `create_libfunc_u32_const` (mod.rs lines 419-433), as for u8. -/
def create_libfunc_u32_const (decl : LibfuncDeclaration)
    (storage : Storage) : Except Err Storage :=
match decl.genericArgs with
| [GenericArg.value v] =>
  Except.ok { storage with
    u32_consts := mapInsert storage.u32_consts
      (normalize_func_name decl.debugName) v }
| _ => Except.error (Err.panic msgTodo)

/-- `create_libfunc_u64_const` (mod.rs lines 435-449), as for u8. -/
def create_libfunc_u64_const (decl : LibfuncDeclaration)
    (storage : Storage) : Except Err Storage :=
match decl.genericArgs with
| [GenericArg.value v] =>
  Except.ok { storage with
    u64_consts := mapInsert storage.u64_consts
      (normalize_func_name decl.debugName) v }
| _ => Except.error (Err.panic msgTodo)

/-- `create_libfunc_u128_const` (mod.rs lines 451-465), as for u8. -/
def create_libfunc_u128_const (decl : LibfuncDeclaration)
    (storage : Storage) : Except Err Storage :=
match decl.genericArgs with
| [GenericArg.value v] =>
  Except.ok { storage with
    u128_consts := mapInsert storage.u128_consts
      (normalize_func_name decl.debugName) v }
| _ => Except.error (Err.panic msgTodo)

/-- Body of the callable emitted by `create_libfunc_struct_construct` for a
composite with `n` fields: `op_llvm_struct` creates the initial struct
value (op 0), then the loop inserts block argument `i` at field slot `i`
(ops `1 + i`), and `op_return` returns the final struct (result `n`). -/
def structConstructOps (n : Nat) : List BodyOp :=
BodyOp.structUndef n ::
  ((List.range n).map (fun i => BodyOp.insertVal (Ref.res i) i (Ref.arg i)) ++
    [BodyOp.returnOp [Ref.res n]])

/-- `create_libfunc_struct_construct` (mod.rs lines 115-186): resolve the
single `Type` generic argument to a composite type, emit a callable taking
one argument per field (in field order) that inserts each argument into the
corresponding slot of an initially-undefined composite and returns it, and
register `FunctionDef{args: field descriptors, return_types: [composite]}`
under the normalized name. -/
def create_libfunc_struct_construct (decl : LibfuncDeclaration)
    (st : CompilerState) : Except Err CompilerState :=
match resolveTypeArg st.storage decl.genericArgs[0]? with
| Except.error e => Except.error e
| Except.ok arg_type =>
  match arg_type.get_field_types with
  | none => Except.error (Err.panic msgFieldTypes)
  | some args =>
    match arg_type.get_field_sierra_types with
    | none => Except.error (Err.panic msgUnwrapNone)
    | some fieldSierra =>
      let id := normalize_func_name decl.debugName
      Except.ok
        { moduleFuncs := st.moduleFuncs ++
            [{ name := id,
               argTys := args,
               retTys := [MlirType.structTy args],
               body := structConstructOps args.length }],
          storage := { st.storage with
            functions := mapInsert st.storage.functions id
              { args := fieldSierra, return_types := [arg_type] } } }

/-- `create_libfunc_store_temp` (mod.rs lines 188-251), also used for
`rename`: an identity callable — one argument of the resolved type in, the
same value out — with `FunctionDef{args: [T], return_types: [T]}`. -/
def create_libfunc_store_temp (decl : LibfuncDeclaration)
    (st : CompilerState) : Except Err CompilerState :=
match resolveTypeArg st.storage decl.genericArgs[0]? with
| Except.error e => Except.error e
| Except.ok arg_type =>
  let id := normalize_func_name decl.debugName
  Except.ok
    { moduleFuncs := st.moduleFuncs ++
        [{ name := id,
           argTys := [arg_type.get_type],
           retTys := [arg_type.get_type],
           body := [BodyOp.returnOp [Ref.arg 0]] }],
      storage := { st.storage with
        functions := mapInsert st.storage.functions id
          { args := [arg_type], return_types := [arg_type] } } }

/-- `create_libfunc_dup` (mod.rs lines 253-324): a callable returning its
single argument twice, with `FunctionDef{args: [T], return_types: [T, T]}`. -/
def create_libfunc_dup (decl : LibfuncDeclaration)
    (st : CompilerState) : Except Err CompilerState :=
match resolveTypeArg st.storage decl.genericArgs[0]? with
| Except.error e => Except.error e
| Except.ok arg_type =>
  let id := normalize_func_name decl.debugName
  Except.ok
    { moduleFuncs := st.moduleFuncs ++
        [{ name := id,
           argTys := [arg_type.get_type],
           retTys := [arg_type.get_type, arg_type.get_type],
           body := [BodyOp.returnOp [Ref.arg 0, Ref.arg 0]] }],
      storage := { st.storage with
        functions := mapInsert st.storage.functions id
          { args := [arg_type], return_types := [arg_type, arg_type] } } }

/-- Body of the callable emitted by `create_libfunc_felt_binary_op` for the
field type of width `fw`: sign-extend both felt arguments to the
double-width type (ops 0 and 1), apply the raw arithmetic operation at
double width (op 2), reduce with the external `felt_modulo` helper back to
the canonical range and single width (op 3), and return the result. -/
def feltBinOpOps (fw : Nat) (op : BinaryOp) : List BodyOp :=
[BodyOp.sextOp (Ref.arg 0) (2 * fw),
 BodyOp.sextOp (Ref.arg 1) (2 * fw),
 BodyOp.arith op (Ref.res 0) (Ref.res 1),
 BodyOp.feltMod (Ref.res 2) fw,
 BodyOp.returnOp [Ref.res 3]]

/-- `create_libfunc_felt_binary_op` (mod.rs lines 326-385).  `fw` is the
bit width of `self.felt_type()` (compiler.rs is absent from the sources, so
the width is a parameter; `double_felt_type()` is its double).  For
`Add`/`Sub`/`Mul` the builder emits the widen–operate–reduce callable and
registers `FunctionDef{args: [felt, felt], return_types: [felt]}`; the
`Div` arm is `todo!()`, which panics before anything is appended to the
module or inserted into the signature table. -/
def create_libfunc_felt_binary_op (fw : Nat) (decl : LibfuncDeclaration)
    (st : CompilerState) (binary_op : BinaryOp) : Except Err CompilerState :=
let id := normalize_func_name decl.debugName
let feltSierra := SierraType.simple (MlirType.intTy fw)
match binary_op with
| BinaryOp.Div => Except.error (Err.panic msgTodo)
| _ =>
  Except.ok
    { moduleFuncs := st.moduleFuncs ++
        [{ name := id,
           argTys := [MlirType.intTy fw, MlirType.intTy fw],
           retTys := [MlirType.intTy fw],
           body := feltBinOpOps fw binary_op }],
      storage := { st.storage with
        functions := mapInsert st.storage.functions id
          { args := [feltSierra, feltSierra],
            return_types := [feltSierra] } } }

/-- Body of the widening callable emitted by `create_libfunc_upcast`:
`op_zext` to the destination width, then return. -/
def upcastBodyOps (dstW : Nat) : List BodyOp :=
[BodyOp.zextOp (Ref.arg 0) dstW, BodyOp.returnOp [Ref.res 0]]

/-- `create_libfunc_upcast` (mod.rs lines 467-530): resolve the two `Type`
generic arguments (`todo!("invalid generic kind")` on any other kind,
`.expect("type to exist")` on a registry miss), take the integer widths of
both (`.unwrap()`), and compare: source narrower — emit a zero-extension
callable `args=[src] -> [dst]` and register `FunctionDef{[src], [dst]}`;
equal widths — do nothing and succeed; source wider — `todo!("invalid
generics for libfunc `upcast`")`. -/
def create_libfunc_upcast (decl : LibfuncDeclaration)
    (st : CompilerState) : Except Err CompilerState :=
let id := normalize_func_name decl.debugName
match decl.genericArgs[0]? with
| none => Except.error (Err.panic msgIndexOutOfBounds)
| some (GenericArg.type sid) =>
  (match mapLookup st.storage.types sid with
  | none => Except.error (Err.panic msgTypeToExist)
  | some src_sierra_type =>
    match decl.genericArgs[1]? with
    | none => Except.error (Err.panic msgIndexOutOfBounds)
    | some (GenericArg.type did) =>
      (match mapLookup st.storage.types did with
      | none => Except.error (Err.panic msgTypeToExist)
      | some dst_sierra_type =>
        match src_sierra_type.get_type.get_width with
        | none => Except.error (Err.panic msgUnwrapNone)
        | some srcW =>
          match dst_sierra_type.get_type.get_width with
          | none => Except.error (Err.panic msgUnwrapNone)
          | some dstW =>
            match compare srcW dstW with
            | Ordering.lt =>
              Except.ok
                { moduleFuncs := st.moduleFuncs ++
                    [{ name := id,
                       argTys := [src_sierra_type.get_type],
                       retTys := [dst_sierra_type.get_type],
                       body := upcastBodyOps dstW }],
                  storage := { st.storage with
                    functions := mapInsert st.storage.functions id
                      { args := [src_sierra_type],
                        return_types := [dst_sierra_type] } } }
            | Ordering.eq => Except.ok st
            | Ordering.gt => Except.error (Err.panic msgTodoUpcastGenerics))
    | some _ => Except.error (Err.panic msgTodoInvalidGenericKind))
| some _ => Except.error (Err.panic msgTodoInvalidGenericKind)

/-- All generic identities `process_libfuncs` matches explicitly (including
the three no-op arms); any other identity hits the `_ => debug!(...)`
catch-all. -/
def handledNames : List String :=
["revoke_ap_tracking", "disable_ap_tracking", "drop", "felt252_const",
 "felt252_add", "felt252_sub", "felt252_mul", "dup", "struct_construct",
 "store_temp", "rename", "u8_const", "u16_const", "u32_const", "u64_const",
 "u128_const", "upcast"]

/-- One iteration of the `process_libfuncs` dispatch loop (mod.rs lines
24-92): match the declaration's generic identity and run the corresponding
builder; the no-op arms `continue`; an unrecognized identity is logged
(`debug!`) and skipped without touching any state. -/
def processLibfuncStep (fw : Nat) (st : CompilerState)
    (decl : LibfuncDeclaration) : Except Err CompilerState :=
let name := decl.genericId
if name = "revoke_ap_tracking" then Except.ok st
else if name = "disable_ap_tracking" then Except.ok st
else if name = "drop" then Except.ok st
else if name = "felt252_const" then
  (create_libfunc_felt_const decl st.storage).map
    (fun s => { st with storage := s })
else if name = "felt252_add" then
  create_libfunc_felt_binary_op fw decl st BinaryOp.Add
else if name = "felt252_sub" then
  create_libfunc_felt_binary_op fw decl st BinaryOp.Sub
else if name = "felt252_mul" then
  create_libfunc_felt_binary_op fw decl st BinaryOp.Mul
else if name = "dup" then create_libfunc_dup decl st
else if name = "struct_construct" then create_libfunc_struct_construct decl st
else if name = "store_temp" then create_libfunc_store_temp decl st
else if name = "rename" then create_libfunc_store_temp decl st
else if name = "u8_const" then
  (create_libfunc_u8_const decl st.storage).map
    (fun s => { st with storage := s })
else if name = "u16_const" then
  (create_libfunc_u16_const decl st.storage).map
    (fun s => { st with storage := s })
else if name = "u32_const" then
  (create_libfunc_u32_const decl st.storage).map
    (fun s => { st with storage := s })
else if name = "u64_const" then
  (create_libfunc_u64_const decl st.storage).map
    (fun s => { st with storage := s })
else if name = "u128_const" then
  (create_libfunc_u128_const decl st.storage).map
    (fun s => { st with storage := s })
else if name = "upcast" then create_libfunc_upcast decl st
else Except.ok st

/-- `process_libfuncs` (mod.rs lines 23-96): fold the dispatch step over
the declared libfunc instances, aborting on the first builder failure
(a panic aborts the pass), and return `Ok(())` with the final state. -/
def process_libfuncs (fw : Nat) (st : CompilerState) :
    List LibfuncDeclaration → Except Err CompilerState
| [] => Except.ok st
| decl :: rest =>
  match processLibfuncStep fw st decl with
  | Except.ok st2 => process_libfuncs fw st2 rest
  | Except.error e => Except.error e

/-- An 8-bit integer type descriptor, used by the concrete test programs. -/
def exTypeA : SierraType := SierraType.simple (MlirType.intTy 8)

/-- A 16-bit integer type descriptor, used by the concrete test programs. -/
def exTypeB : SierraType := SierraType.simple (MlirType.intTy 16)

/-- A two-field composite type descriptor over two 8-bit fields. -/
def exStructSierra : SierraType :=
SierraType.structType (MlirType.structTy [MlirType.intTy 8, MlirType.intTy 8])
  [exTypeA, exTypeA]

/-- A pre-populated type registry holding the three example types under the
ids 0, 1 and 2, with all other tables empty. -/
def exStorage : Storage :=
{ types := [(0, exTypeA), (1, exTypeB), (2, exStructSierra)],
  felt_consts := [], u8_consts := [], u16_consts := [], u32_consts := [],
  u64_consts := [], u128_consts := [], functions := [] }

/-- The compiler state with the example registry and an empty module. -/
def exState : CompilerState := { moduleFuncs := [], storage := exStorage }

/-- The signature a `store_temp` over `exTypeA` registers. -/
def exDefA : FunctionDef := { args := [exTypeA], return_types := [exTypeA] }

/-- The signature a `store_temp` over `exTypeB` registers. -/
def exDefB : FunctionDef := { args := [exTypeB], return_types := [exTypeB] }

/-- The example state whose signature table already holds an entry under the
name "store_temp&lt;t&gt;" (spelled with angle brackets). -/
def exStatePre : CompilerState :=
{ moduleFuncs := [],
  storage := { exStorage with functions := [("store_temp<t>", exDefA)] } }

/-- A `store_temp` declaration over type 0 whose debug name collides with
`exDeclStoreTempB`. -/
def exDeclStoreTempA : LibfuncDeclaration :=
{ id := 0, genericId := "store_temp", genericArgs := [GenericArg.type 0],
  debugName := "store_temp<t>" }

/-- A `store_temp` declaration over type 1 with the same debug name as
`exDeclStoreTempA`. -/
def exDeclStoreTempB : LibfuncDeclaration :=
{ id := 1, genericId := "store_temp", genericArgs := [GenericArg.type 1],
  debugName := "store_temp<t>" }

/-- A field-element division libfunc declaration. -/
def exDeclFeltDiv : LibfuncDeclaration :=
{ id := 2, genericId := "felt252_div", genericArgs := [],
  debugName := "felt252_div<>" }

/-- A declaration whose generic identity no dispatch arm recognizes. -/
def exDeclUnknown : LibfuncDeclaration :=
{ id := 3, genericId := "frobnicate", genericArgs := [],
  debugName := "frobnicate<>" }

/-- A widening upcast declaration (8-bit source, 16-bit destination). -/
def exDeclUpcastGood : LibfuncDeclaration :=
{ id := 4, genericId := "upcast",
  genericArgs := [GenericArg.type 0, GenericArg.type 1],
  debugName := "upcast<a,b>" }

/-- A narrowing upcast declaration (16-bit source, 8-bit destination). -/
def exDeclUpcastBad : LibfuncDeclaration :=
{ id := 5, genericId := "upcast",
  genericArgs := [GenericArg.type 1, GenericArg.type 0],
  debugName := "upcast<b,a>" }

/-- An equal-width upcast declaration (8-bit source and destination). -/
def exDeclUpcastEq : LibfuncDeclaration :=
{ id := 6, genericId := "upcast",
  genericArgs := [GenericArg.type 0, GenericArg.type 0],
  debugName := "upcast<a,a>" }

/-- A `struct_construct` declaration over the example composite type. -/
def exDeclStructCon : LibfuncDeclaration :=
{ id := 7, genericId := "struct_construct", genericArgs := [GenericArg.type 2],
  debugName := "struct_construct<s>" }

end Sierra2Mlir

namespace EnumLibfuncs

theorem le_roundUp (t : Nat) {a : Nat} (ha : 0 < a) : t ≤ roundUp t a := by
have h1 : a * ((t + a - 1) / a) + (t + a - 1) % a = t + a - 1 :=
  Nat.div_add_mod _ a
have h2 : (t + a - 1) % a < a := Nat.mod_lt _ ha
unfold roundUp
omega

theorem roundUp_dvd (t a : Nat) : a ∣ roundUp t a := ⟨_, rfl⟩

theorem roundUp_le {t a m : Nat} (ha : 0 < a) (hd : a ∣ m) (hm : t ≤ m) :
    roundUp t a ≤ m := by
obtain ⟨k, rfl⟩ := hd
unfold roundUp
have hq : (t + a - 1) / a < k + 1 := by
  rw [Nat.div_lt_iff_lt_mul ha]
  have hx : (k + 1) * a = a * k + a := by ring
  omega
exact mul_le_mul_left' (Nat.lt_succ_iff.mp hq) a

theorem pow2_dvd_of_le {j k : Nat} (h : (2 : Nat) ^ j ≤ 2 ^ k) :
    (2 : Nat) ^ j ∣ 2 ^ k :=
pow_dvd_pow 2 ((Nat.pow_le_pow_iff_right (by norm_num)).mp h)

theorem overallAlign_pos (vs : List (Nat × Nat)) : 0 < overallAlign vs := by
induction vs with
| nil => simp [overallAlign]
| cons v t ih =>
  have h : overallAlign (v :: t) = max v.2 (overallAlign t) := rfl
  rw [h]
  exact lt_of_lt_of_le ih (le_max_right _ _)

theorem align_le_overallAlign {vs : List (Nat × Nat)} {v : Nat × Nat}
    (hv : v ∈ vs) : v.2 ≤ overallAlign vs := by
induction vs with
| nil => cases hv
| cons w t ih =>
  have h : overallAlign (w :: t) = max w.2 (overallAlign t) := rfl
  rw [h]
  rcases List.mem_cons.mp hv with rfl | hmem
  · exact le_max_left _ _
  · exact le_trans (ih hmem) (le_max_right _ _)

theorem overallAlign_pow2 {vs : List (Nat × Nat)}
    (h : ∀ v ∈ vs, ∃ k, v.2 = 2 ^ k) : ∃ k, overallAlign vs = 2 ^ k := by
induction vs with
| nil => exact ⟨0, rfl⟩
| cons v t ih =>
  obtain ⟨i, hi⟩ := h v (List.mem_cons_self v t)
  obtain ⟨j, hj⟩ := ih (fun w hw => h w (List.mem_cons_of_mem v hw))
  have hc : overallAlign (v :: t) = max v.2 (overallAlign t) := rfl
  rcases le_total v.2 (overallAlign t) with hle | hle
  · exact ⟨j, by rw [hc, max_eq_right hle, hj]⟩
  · exact ⟨i, by rw [hc, max_eq_left hle, hi]⟩

theorem size_le_maxPayloadSize {vs : List (Nat × Nat)} {v : Nat × Nat}
    (hv : v ∈ vs) : v.1 ≤ maxPayloadSize vs := by
induction vs with
| nil => cases hv
| cons w t ih =>
  have h : maxPayloadSize (w :: t) = max w.1 (maxPayloadSize t) := rfl
  rw [h]
  rcases List.mem_cons.mp hv with rfl | hmem
  · exact le_max_left _ _
  · exact le_trans (ih hmem) (le_max_right _ _)

theorem getD_mem {α : Type} {vs : List α} {i : Nat} (d : α)
    (hi : i < vs.length) : vs.getD i d ∈ vs := by
induction vs generalizing i with
| nil => simp at hi
| cons v t ih =>
  cases i with
  | zero => exact List.mem_cons_self _ _
  | succ j =>
    exact List.mem_cons_of_mem v (ih (Nat.lt_of_succ_lt_succ hi))

/-- Every payload region `[offset, offset + size)` of a variant lies inside
the overall enum size computed by the layout engine. -/
theorem payload_fits {vs : List (Nat × Nat)}
    (hpow : ∀ v ∈ vs, ∃ k, v.2 = 2 ^ k) {i : Nat} (hi : i < vs.length) :
    payloadOffset (get_type_for_variants vs).tagBits (vs.getD i (0, 0)).2 +
      (vs.getD i (0, 0)).1 ≤ (get_type_for_variants vs).size := by
have hv : vs.getD i (0, 0) ∈ vs := getD_mem (0, 0) hi
obtain ⟨j, hj⟩ := hpow _ hv
obtain ⟨k, hk⟩ := overallAlign_pow2 hpow
have hA : 0 < overallAlign vs := overallAlign_pos vs
have ha : 0 < (vs.getD i (0, 0)).2 := by rw [hj]; positivity
have hle : (vs.getD i (0, 0)).2 ≤ overallAlign vs := align_le_overallAlign hv
have hdvd : (vs.getD i (0, 0)).2 ∣ overallAlign vs := by
  rw [hj, hk]
  exact pow2_dvd_of_le (by rw [← hj, ← hk]; exact hle)
set t := (get_type_for_variants vs).tagBits with ht
have hoff : payloadOffset t (vs.getD i (0, 0)).2 ≤ roundUp t (overallAlign vs) := by
  unfold payloadOffset
  exact roundUp_le ha (dvd_trans hdvd (roundUp_dvd t (overallAlign vs)))
    (le_roundUp t hA)
have hs : (vs.getD i (0, 0)).1 ≤ maxPayloadSize vs := size_le_maxPayloadSize hv
have hfinal : roundUp t (overallAlign vs) + maxPayloadSize vs ≤
    (get_type_for_variants vs).size :=
  le_roundUp _ hA
omega

theorem tagBits_le_payloadOffset {t a : Nat} (ha : 0 < a) :
    t ≤ payloadOffset t a := le_roundUp t ha

theorem encodeNat_length (w v : Nat) : (encodeNat w v).length = w := by
induction w generalizing v with
| zero => rfl
| succ w ih => simp [encodeNat, ih]

theorem decode_encode {w v : Nat} (h : v < 2 ^ w) :
    decodeBits (encodeNat w v) = v := by
induction w generalizing v with
| zero =>
  have : v = 0 := by simpa using h
  simp [this, encodeNat, decodeBits]
| succ w ih =>
  have hdiv : v / 2 < 2 ^ w := by
    rw [Nat.div_lt_iff_lt_mul (by norm_num)]
    rw [pow_succ] at h
    exact h
  have hrec : decodeBits (encodeNat w (v / 2)) = v / 2 := ih hdiv
  have hmod := Nat.div_add_mod v 2
  rcases Nat.mod_two_eq_zero_or_one v with h2 | h2 <;>
    simp [encodeNat, decodeBits, h2, hrec] <;> omega

theorem lt_two_pow_tagBits {n i : Nat} (hi : i < n) :
    i < 2 ^ (Nat.log 2 (n - 1) + 1) := by
have h := Nat.lt_pow_succ_log_self (by norm_num : 1 < 2) (n - 1)
omega

theorem readBits_length (m : Mem) (off len : Nat) :
    (readBits m off len).length = len := by
induction len generalizing off with
| zero => rfl
| succ len ih => simp [readBits, ih]

theorem readBits_getD {m : Mem} {off len k : Nat} (h : k < len) :
    (readBits m off len).getD k false = m (off + k) := by
induction len generalizing off k with
| zero => omega
| succ len ih =>
  cases k with
  | zero => simp [readBits]
  | succ j =>
    have hstep := @ih (off + 1) j (by omega)
    simp only [readBits, List.getD_cons_succ]
    rw [hstep]
    ring_nf

theorem readBits_take {m : Mem} {off len k : Nat} (h : k ≤ len) :
    (readBits m off len).take k = readBits m off k := by
induction len generalizing off k with
| zero =>
  have : k = 0 := by omega
  simp [this, readBits]
| succ len ih =>
  cases k with
  | zero => rfl
  | succ j => simp [readBits, ih (by omega : j ≤ len)]

theorem readBits_eq_of_pointwise {m : Mem} {off : Nat} {bs : List Bool}
    (h : ∀ k, k < bs.length → m (off + k) = bs.getD k false) :
    readBits m off bs.length = bs := by
induction bs generalizing off with
| nil => rfl
| cons b t ih =>
  have h0 : m off = b := by
    have := h 0 (by simp)
    simpa using this
  have ht : readBits m (off + 1) t.length = t := by
    apply ih
    intro k hk
    calc m (off + 1 + k) = m (off + (k + 1)) := by ring_nf
    _ = (b :: t).getD (k + 1) false :=
      h (k + 1) (by simpa using Nat.succ_lt_succ hk)
    _ = t.getD k false := rfl
  simp [readBits, h0, ht, List.length_cons]

theorem writeBits_in {m : Mem} {off k : Nat} {bs : List Bool}
    (h1 : off ≤ k) (h2 : k < off + bs.length) :
    writeBits m off bs k = bs.getD (k - off) false := by
simp [writeBits, h1, h2]

theorem writeBits_out {m : Mem} {off k : Nat} {bs : List Bool}
    (h : k < off ∨ off + bs.length ≤ k) :
    writeBits m off bs k = m k := by
unfold writeBits
rcases h with h | h
· rw [if_neg]; omega
· rw [if_neg]; omega

theorem readBits_eq_of_pointwise_len {m : Mem} {off len : Nat}
    {bs : List Bool} (hl : len = bs.length)
    (h : ∀ k, k < len → m (off + k) = bs.getD k false) :
    readBits m off len = bs := by
subst hl
exact readBits_eq_of_pointwise h

theorem build_match_eq_branch (vs : List (Nat × Nat)) (m0 : Mem)
    (value : List Bool) (i : Nat)
    (hdec : decodeBits (value.take (get_type_for_variants vs).tagBits) = i)
    (hi : i < vs.length) :
    build_match vs m0 value = MatchResult.branch i
      (readBits (writeBits m0 0 value)
        (payloadOffset (get_type_for_variants vs).tagBits (vs.getD i (0, 0)).2)
        (vs.getD i (0, 0)).1) := by
simp only [build_match]
rw [hdec, if_pos hi]

/-- C1: for every variant set whose payload alignments are powers of two,
every valid variant index `i`, and every payload bit pattern `p` of variant
`i`'s own payload size, lowering `enum_init(i, p)` and then `enum_match` on
the resulting value branches to successor `i` and delivers a payload
bit-equal to `p` — independently of the junk initially in either alloca. -/
theorem enum_init_match_roundtrip
    (vs : List (Nat × Nat)) (i : Nat) (p : List Bool) (m0 m1 : Mem)
    (hi : i < vs.length)
    (hlen : p.length = (vs.getD i (0, 0)).1)
    (hpow : ∀ v ∈ vs, ∃ k, v.2 = 2 ^ k) :
    build_match vs m1 (build_init vs i p m0) = MatchResult.branch i p := by
have hv : vs.getD i (0, 0) ∈ vs := getD_mem (0, 0) hi
obtain ⟨j, hj⟩ := hpow _ hv
have hal : 0 < (vs.getD i (0, 0)).2 := by
  rw [hj]; exact pow_pos (by norm_num) j
have htoff : (get_type_for_variants vs).tagBits ≤
    payloadOffset (get_type_for_variants vs).tagBits (vs.getD i (0, 0)).2 :=
  tagBits_le_payloadOffset hal
have hfit := payload_fits hpow hi
have htsize : (get_type_for_variants vs).tagBits ≤
    (get_type_for_variants vs).size := by omega
have hvalue : build_init vs i p m0 =
    readBits (writeBits (writeBits m0 0
        (encodeNat (get_type_for_variants vs).tagBits i))
      (payloadOffset (get_type_for_variants vs).tagBits (vs.getD i (0, 0)).2)
      p) 0 (get_type_for_variants vs).size := rfl
have hvlen : (build_init vs i p m0).length =
    (get_type_for_variants vs).size := by
  rw [hvalue]; exact readBits_length _ _ _
have htag : decodeBits ((build_init vs i p m0).take
    (get_type_for_variants vs).tagBits) = i := by
  rw [hvalue, readBits_take htsize]
  have hpt : readBits (writeBits (writeBits m0 0
      (encodeNat (get_type_for_variants vs).tagBits i))
      (payloadOffset (get_type_for_variants vs).tagBits (vs.getD i (0, 0)).2)
      p) 0 (get_type_for_variants vs).tagBits =
      encodeNat (get_type_for_variants vs).tagBits i := by
    apply readBits_eq_of_pointwise_len (encodeNat_length _ _).symm
    intro k hk
    have hk2 : k < payloadOffset (get_type_for_variants vs).tagBits
        (vs.getD i (0, 0)).2 := lt_of_lt_of_le hk htoff
    rw [Nat.zero_add, writeBits_out (Or.inl hk2),
      writeBits_in (Nat.zero_le k)
        (by rw [encodeNat_length]; omega)]
    simp
  rw [hpt]
  exact decode_encode (lt_two_pow_tagBits hi)
have hpay : readBits (writeBits m1 0 (build_init vs i p m0))
    (payloadOffset (get_type_for_variants vs).tagBits (vs.getD i (0, 0)).2)
    (vs.getD i (0, 0)).1 = p := by
  apply readBits_eq_of_pointwise_len hlen.symm
  intro k hk
  have hoffk : payloadOffset (get_type_for_variants vs).tagBits
      (vs.getD i (0, 0)).2 + k < (get_type_for_variants vs).size := by omega
  rw [writeBits_in (Nat.zero_le _) (by rw [hvlen]; omega)]
  simp only [Nat.sub_zero]
  rw [hvalue, readBits_getD hoffk, Nat.zero_add,
    writeBits_in (Nat.le_add_right _ _) (by omega),
    Nat.add_sub_cancel_left]
rw [build_match_eq_branch vs m1 (build_init vs i p m0) i htag hi, hpay]

/-- C1 witness: the round trip at the concrete variant set
`[(2, 2), (4, 4)]`, variant 1, payload `[true, false, true, true]`, with
all-true junk in the init alloca and all-false junk in the match alloca. -/
theorem enum_init_match_roundtrip_witness :
    build_match [(2, 2), (4, 4)] (fun _ => false)
      (build_init [(2, 2), (4, 4)] 1 [true, false, true, true]
        (fun _ => true)) =
      MatchResult.branch 1 [true, false, true, true] :=
enum_init_match_roundtrip [(2, 2), (4, 4)] 1 [true, false, true, true]
  (fun _ => true) (fun _ => false) (by decide) (by decide)
  (by
    intro v hv
    simp only [List.mem_cons, List.not_mem_nil, or_false] at hv
    rcases hv with rfl | rfl
    · exact ⟨1, rfl⟩
    · exact ⟨2, rfl⟩)

/-- C3: `enum_match` on a value whose discriminant decodes outside
`[0, variants.len())` reaches the default successor — whose emitted body is
a false constant, the failing `cf.assert` with the "Invalid enum tag."
message, and `llvm.unreachable` — and never reaches a variant successor. -/
theorem enum_match_invalid_tag (vs : List (Nat × Nat)) (m0 : Mem)
    (value : List Bool)
    (h : vs.length ≤ decodeBits (value.take (get_type_for_variants vs).tagBits)) :
    build_match vs m0 value = MatchResult.assertFail msgInvalidEnumTag ∧
    (build_match_emission vs).appendedBlocks.getD 0 [] = default_block_ops ∧
    default_block_ops =
      [MOp.arithConst 0 (MTy.int 1),
       MOp.cfAssert (ValRef.opResult 0) msgInvalidEnumTag,
       MOp.llvmUnreachable] ∧
    ∀ s pl, build_match vs m0 value ≠ MatchResult.branch s pl := by
have heq : build_match vs m0 value = MatchResult.assertFail msgInvalidEnumTag := by
  simp only [build_match]
  rw [if_neg (by omega)]
refine ⟨heq, rfl, rfl, ?_⟩
intro s pl hc
rw [heq] at hc
exact MatchResult.noConfusion hc

/-- C3 witness: a single-variant set and a value whose one-bit discriminant
reads 1, outside `[0, 1)`. -/
theorem enum_match_invalid_tag_witness :
    build_match [(2, 2)] (fun _ => false) [true, true, true, true] =
      MatchResult.assertFail msgInvalidEnumTag :=
(enum_match_invalid_tag [(2, 2)] (fun _ => false) [true, true, true, true]
  (by simp [get_type_for_variants]; decide)).1

/-- C2: `build_match` appends exactly `variants.len() + 1` blocks (the
default plus one per variant); its switch has case values
`0..variants.len()`, case `k` branching (injectively, in declaration order)
to appended block `k + 1`, which is variant block `k`; and every variant
block terminates in `helper.br(i, [v])` passing exactly one value, the
result of `extract_value [1]` — the payload field, never the field-0
discriminant. -/
theorem enum_match_emission_structure (vs : List (Nat × Nat)) :
    (build_match_emission vs).appendedBlocks.length = vs.length + 1 ∧
    (build_match_emission vs).entryOps.getLast? = some
      (MOp.cfSwitch (List.range vs.length) (ValRef.opResult 1) (0, [])
        ((List.range vs.length).map (fun k => (k + 1, [])))) ∧
    (((List.range vs.length).map
        (fun k => ((k + 1 : Nat), ([] : List ValRef)))).map Prod.fst).Nodup ∧
    (∀ k, k < vs.length →
      ((List.range vs.length).map
        (fun k => ((k + 1 : Nat), ([] : List ValRef))))[k]? =
          some (k + 1, []) ∧
      (build_match_emission vs).appendedBlocks[k + 1]? =
        some (variant_block_ops vs k)) ∧
    ∀ i, i < vs.length →
      (variant_block_ops vs i).getLast? =
        some (MOp.helperBr i [ValRef.opResult 2]) ∧
      (variant_block_ops vs i)[2]? =
        some (MOp.extractValue (ValRef.opResult 1) 1 (payload_ty vs i)) := by
refine ⟨?_, rfl, ?_, ?_, ?_⟩
· simp [build_match_emission]
· simp only [List.map_map]
  exact List.Nodup.map (fun a b hab => by
    simp only [Function.comp] at hab; omega) (List.nodup_range _)
· intro k hk
  constructor
  · simp [List.getElem?_map, List.getElem?_range, hk]
  · simp [build_match_emission, List.getElem?_map, List.getElem?_range, hk]
· intro i _
  exact ⟨rfl, rfl⟩

/-- C2 witness: at the two-variant set `[(2, 2), (4, 4)]`, variant block 1
ends in `helper.br(1, [payload])`. -/
theorem enum_match_emission_structure_witness :
    (variant_block_ops [(2, 2), (4, 4)] 1).getLast? =
      some (MOp.helperBr 1 [ValRef.opResult 2]) :=
((enum_match_emission_structure [(2, 2), (4, 4)]).2.2.2.2 1 (by decide)).1

end EnumLibfuncs

namespace Sierra2Mlir

theorem evalBody_step (p : Nat) (args env : List SVal) (op : BodyOp)
    (rest : List BodyOp) (h : ∀ refs, op ≠ BodyOp.returnOp refs) :
    evalBody p args (op :: rest) env =
      evalBody p args rest (env ++ [evalOp p args env op]) := by
cases op with
| returnOp refs => exact absurd rfl (h refs)
| sextOp s w => rfl
| zextOp s w => rfl
| arith o l r => rfl
| feltMod s w => rfl
| structUndef n => rfl
| insertVal t i v => rfl

theorem evalBody_ret (p : Nat) (args env : List SVal) (refs : List Ref)
    (rest : List BodyOp) :
    evalBody p args (BodyOp.returnOp refs :: rest) env =
      some (refs.map (lookupRef args env)) := rfl

theorem toNat_emod_lt {p : Nat} (hp : 0 < p) (y : Int) :
    (y % ((p : Nat) : Int)).toNat < p := by
have h1 : 0 ≤ y % ((p : Nat) : Int) :=
  Int.emod_nonneg y (by exact_mod_cast hp.ne')
have h2 : y % ((p : Nat) : Int) < ((p : Nat) : Int) :=
  Int.emod_lt_of_pos y (by exact_mod_cast hp)
omega

theorem sInterp_wrap {m : Nat} (hm : 0 < m) {x : Int}
    (h1 : -(((2 ^ (m - 1) : Nat)) : Int) ≤ x)
    (h2 : x < ((2 ^ (m - 1) : Nat) : Int)) :
    sInterp m ((x % ((2 ^ m : Nat) : Int)).toNat) = x := by
have key : (2 : Nat) ^ m = 2 ^ (m - 1) * 2 := by
  conv_lhs => rw [show m = (m - 1) + 1 by omega]
  rw [pow_succ]
have hM : ((2 ^ m : Nat) : Int) = ((2 ^ (m - 1) : Nat) : Int) * 2 := by
  rw [key]; push_cast; ring
rcases le_or_lt 0 x with hx | hx
· have hlt : x < ((2 ^ m : Nat) : Int) := by rw [hM]; omega
  rw [Int.emod_eq_of_lt hx hlt]
  unfold sInterp
  rw [if_pos (by omega : x.toNat < 2 ^ (m - 1))]
  omega
· have hy0 : 0 ≤ x + ((2 ^ m : Nat) : Int) := by rw [hM] at *; omega
  have hylt : x + ((2 ^ m : Nat) : Int) < ((2 ^ m : Nat) : Int) := by omega
  have hmod : x % ((2 ^ m : Nat) : Int) = x + ((2 ^ m : Nat) : Int) := by
    have hshift : (x + ((2 ^ m : Nat) : Int) * 1) % ((2 ^ m : Nat) : Int) =
        x % ((2 ^ m : Nat) : Int) :=
      Int.add_mul_emod_self_left x ((2 ^ m : Nat) : Int) 1
    rw [mul_one] at hshift
    rw [← hshift, Int.emod_eq_of_lt hy0 hylt]
  rw [hmod]
  unfold sInterp
  rw [if_neg (by rw [hM] at *; omega)]
  omega

theorem sext_canonical {fw toW a : Nat} (ha : a < 2 ^ (fw - 1))
    (hle : 2 ^ (fw - 1) ≤ 2 ^ toW) :
    ((sInterp fw a) % ((2 ^ toW : Nat) : Int)).toNat = a := by
unfold sInterp
rw [if_pos ha]
rw [Int.emod_eq_of_lt (by positivity)
  (by exact_mod_cast lt_of_lt_of_le ha hle)]
simp

end Sierra2Mlir

namespace Sierra2Mlir

theorem evalBody_insertVal (p : Nat) (args env : List SVal) (t : Ref)
    (i : Nat) (v : Ref) (rest : List BodyOp) :
    evalBody p args (BodyOp.insertVal t i v :: rest) env =
      evalBody p args rest
        (env ++ [evalOp p args env (BodyOp.insertVal t i v)]) := rfl

/-- C4: for a field prime `p` fitting the felt width `fw` (compiler-level
constants, taken as parameters since compiler.rs is outside the sources)
and canonical operands `a, b < p`, the callable emitted by
`create_libfunc_felt_binary_op` for add/sub/mul — whose body sign-extends
both operands to the double width `2 * fw`, applies the raw double-width
operation, and reduces with `felt_modulo` — is emitted into the module with
the `(felt, felt) -> felt` signature registered, and evaluates to
`(a ⊕ b) mod p`, again in the canonical range `[0, p)`. -/
theorem felt_binary_op_correct (fw p a b : Nat) (op : BinaryOp)
    (hop : op ≠ BinaryOp.Div) (hfw : 0 < fw) (hp : 0 < p)
    (hple : p ≤ 2 ^ (fw - 1)) (ha : a < p) (hb : b < p) :
    (∀ (decl : LibfuncDeclaration) (st : CompilerState),
      create_libfunc_felt_binary_op fw decl st op = Except.ok
        { moduleFuncs := st.moduleFuncs ++
            [{ name := normalize_func_name decl.debugName,
               argTys := [MlirType.intTy fw, MlirType.intTy fw],
               retTys := [MlirType.intTy fw],
               body := feltBinOpOps fw op }],
          storage := { st.storage with
            functions := mapInsert st.storage.functions
              (normalize_func_name decl.debugName)
              { args := [SierraType.simple (MlirType.intTy fw),
                         SierraType.simple (MlirType.intTy fw)],
                return_types := [SierraType.simple (MlirType.intTy fw)] } } }) ∧
    evalBody p [SVal.int fw a, SVal.int fw b] (feltBinOpOps fw op) [] =
      some [SVal.int fw
        ((binOpDenote op (a : Int) (b : Int) % ((p : Nat) : Int)).toNat)] ∧
    (binOpDenote op (a : Int) (b : Int) % ((p : Nat) : Int)).toNat < p := by
have ha1 : a < 2 ^ (fw - 1) := lt_of_lt_of_le ha hple
have hb1 : b < 2 ^ (fw - 1) := lt_of_lt_of_le hb hple
have hle2 : (2 : Nat) ^ (fw - 1) ≤ 2 ^ (2 * fw) :=
  Nat.pow_le_pow_right (by norm_num) (by omega)
have hsa := @sext_canonical fw (2 * fw) a ha1 hle2
have hsb := @sext_canonical fw (2 * fw) b hb1 hle2
have hfw2 : (2 : Nat) ^ fw = 2 ^ (fw - 1) * 2 := by
  conv_lhs => rw [show fw = (fw - 1) + 1 by omega]
  rw [pow_succ]
have hfwle : (2 : Nat) ^ fw ≤ 2 ^ (2 * fw - 1) :=
  Nat.pow_le_pow_right (by norm_num) (by omega)
have hsq : (2 : Nat) ^ (fw - 1) * 2 ^ (fw - 1) ≤ 2 ^ (2 * fw - 1) := by
  rw [← pow_add]
  exact Nat.pow_le_pow_right (by norm_num) (by omega)
have hm2 : 0 < 2 * fw := by omega
have hbound : -(((2 ^ (2 * fw - 1) : Nat)) : Int) ≤
      binOpDenote op (a : Int) (b : Int) ∧
    binOpDenote op (a : Int) (b : Int) < ((2 ^ (2 * fw - 1) : Nat) : Int) := by
  cases op with
  | Div => exact absurd rfl hop
  | Add =>
    constructor
    · simp only [binOpDenote]
      have h0 : (0 : Int) ≤ ((2 ^ (2 * fw - 1) : Nat) : Int) := by positivity
      omega
    · simp only [binOpDenote]
      have hnat : a + b < 2 ^ (2 * fw - 1) := by omega
      omega
  | Sub =>
    constructor
    · simp only [binOpDenote]
      have hple2 : p ≤ 2 ^ (2 * fw - 1) := by omega
      omega
    · simp only [binOpDenote]
      have hple2 : p ≤ 2 ^ (2 * fw - 1) := by omega
      omega
  | Mul =>
    constructor
    · simp only [binOpDenote]
      have h0 : (0 : Int) ≤ ((2 ^ (2 * fw - 1) : Nat) : Int) := by positivity
      have h1 : (0 : Int) ≤ (a : Int) * (b : Int) := by positivity
      omega
    · simp only [binOpDenote]
      have hnat : a * b < 2 ^ (2 * fw - 1) := by
        have h1 : a * b < p * p :=
          Nat.mul_lt_mul_of_lt_of_lt ha hb
        have h2 : p * p ≤ 2 ^ (fw - 1) * 2 ^ (fw - 1) :=
          Nat.mul_le_mul hple hple
        omega
      have hcast : (a : Int) * (b : Int) = ((a * b : Nat) : Int) := by
        push_cast; ring
      rw [hcast]
      exact_mod_cast hnat
have hwrap := sInterp_wrap hm2 hbound.1 hbound.2
refine ⟨?_, ?_, toNat_emod_lt hp _⟩
· intro decl st
  cases op with
  | Div => exact absurd rfl hop
  | Add => rfl
  | Sub => rfl
  | Mul => rfl
· cases op with
  | Div => exact absurd rfl hop
  | Add =>
    simp only [feltBinOpOps, evalBody, evalOp, lookupRef, List.getD_cons_zero,
      List.getD_cons_succ, List.nil_append, List.cons_append, List.map_cons,
      List.map_nil]
    rw [hsa, hsb]
    rw [hwrap]
  | Sub =>
    simp only [feltBinOpOps, evalBody, evalOp, lookupRef, List.getD_cons_zero,
      List.getD_cons_succ, List.nil_append, List.cons_append, List.map_cons,
      List.map_nil]
    rw [hsa, hsb]
    rw [hwrap]
  | Mul =>
    simp only [feltBinOpOps, evalBody, evalOp, lookupRef, List.getD_cons_zero,
      List.getD_cons_succ, List.nil_append, List.cons_append, List.map_cons,
      List.map_nil]
    rw [hsa, hsb]
    rw [hwrap]

/-- C4 witness: the spec's wraparound scenario shape at width 4 and prime 7
with operands 3 and 5: the emitted callable returns (3 + 5) mod 7 = 1, in
canonical range. -/
theorem felt_binary_op_correct_witness :
    evalBody 7 [SVal.int 4 3, SVal.int 4 5] (feltBinOpOps 4 BinaryOp.Add) [] =
      some [SVal.int 4
        ((binOpDenote BinaryOp.Add ((3 : Nat) : Int) ((5 : Nat) : Int) %
          ((7 : Nat) : Int)).toNat)] ∧
    (binOpDenote BinaryOp.Add ((3 : Nat) : Int) ((5 : Nat) : Int) %
      ((7 : Nat) : Int)).toNat < 7 :=
(felt_binary_op_correct 4 7 3 5 BinaryOp.Add (by decide) (by decide)
  (by decide) (by decide) (by decide) (by decide)).2

end Sierra2Mlir

namespace Sierra2Mlir

theorem getD_map_range {α : Type} (f : Nat → α) {m k : Nat} (d : α)
    (h : k < m) : ((List.range m).map f).getD k d = f k := by
rw [List.getD_eq_getElem?_getD, List.getElem?_map, List.getElem?_range h]
rfl

theorem set_take_replicate (args : List SVal) :
    ∀ k, k < args.length →
    (args.take k ++ List.replicate (args.length - k) SVal.undef).set k
        (args.getD k SVal.undef) =
      args.take (k + 1) ++ List.replicate (args.length - (k + 1)) SVal.undef := by
induction args with
| nil => intro k hk; simp at hk
| cons x t ih =>
  intro k hk
  cases k with
  | zero => simp [List.replicate_succ]
  | succ j =>
    have hj : j < t.length := by simpa using Nat.lt_of_succ_lt_succ hk
    have hrec := ih j hj
    simp only [List.take_succ_cons, List.length_cons, Nat.succ_sub_succ,
      List.cons_append, List.set_cons_succ, List.getD_cons_succ]
    rw [hrec]

/-- After the `struct_construct` loop has inserted block arguments
`0..k - 1`, the last environment entry is the composite holding the first
`k` arguments; running the remaining insertions and the return yields the
fully-populated composite. -/
theorem structConstruct_eval_aux (p : Nat) (args : List SVal) :
    ∀ d k, k + d = args.length →
    evalBody p args
      (((List.range' k d).map
          (fun i => BodyOp.insertVal (Ref.res i) i (Ref.arg i))) ++
        [BodyOp.returnOp [Ref.res args.length]])
      ((List.range (k + 1)).map
        (fun j => SVal.structV
          (args.take j ++ List.replicate (args.length - j) SVal.undef))) =
      some [SVal.structV args] := by
intro d
induction d with
| zero =>
  intro k hk
  have hkn : k = args.length := by omega
  subst hkn
  rw [show List.range' args.length 0 = [] from rfl]
  simp only [List.map_nil, List.nil_append]
  rw [evalBody_ret]
  simp only [List.map_cons, List.map_nil, lookupRef]
  rw [getD_map_range _ _ (Nat.lt_succ_self args.length)]
  simp [List.take_length, Nat.sub_self]
| succ d ih =>
  intro k hk
  have hklt : k < args.length := by omega
  rw [List.range'_succ]
  simp only [List.map_cons, List.cons_append]
  rw [evalBody_insertVal]
  have hget : ((List.range (k + 1)).map
      (fun j => SVal.structV
        (args.take j ++ List.replicate (args.length - j) SVal.undef))).getD k
        SVal.undef =
      SVal.structV (args.take k ++ List.replicate (args.length - k) SVal.undef) := by
    rw [getD_map_range _ _ (Nat.lt_succ_self k)]
  have hop : evalOp p args
      ((List.range (k + 1)).map
        (fun j => SVal.structV
          (args.take j ++ List.replicate (args.length - j) SVal.undef)))
      (BodyOp.insertVal (Ref.res k) k (Ref.arg k)) =
      SVal.structV
        (args.take (k + 1) ++
          List.replicate (args.length - (k + 1)) SVal.undef) := by
    simp only [evalOp, lookupRef, hget]
    rw [set_take_replicate args k hklt]
  have henv : (List.range (k + 1)).map
        (fun j => SVal.structV
          (args.take j ++ List.replicate (args.length - j) SVal.undef)) ++
      [evalOp p args
        ((List.range (k + 1)).map
          (fun j => SVal.structV
            (args.take j ++ List.replicate (args.length - j) SVal.undef)))
        (BodyOp.insertVal (Ref.res k) k (Ref.arg k))] =
      (List.range (k + 1 + 1)).map
        (fun j => SVal.structV
          (args.take j ++ List.replicate (args.length - j) SVal.undef)) := by
    rw [hop]
    conv_rhs => rw [List.range_succ, List.map_append]
    simp
  rw [henv]
  exact ih (k + 1) (by omega)

/-- Running the body emitted by `create_libfunc_struct_construct` on any
argument list of the right arity returns the composite of exactly those
arguments, in order. -/
theorem structConstruct_eval (p : Nat) (args : List SVal) :
    evalBody p args (structConstructOps args.length) [] =
      some [SVal.structV args] := by
have h0 : evalBody p args (structConstructOps args.length) [] =
    evalBody p args
      (((List.range args.length).map
          (fun i => BodyOp.insertVal (Ref.res i) i (Ref.arg i))) ++
        [BodyOp.returnOp [Ref.res args.length]])
      ((List.range (0 + 1)).map
        (fun j => SVal.structV
          (args.take j ++ List.replicate (args.length - j) SVal.undef))) := rfl
rw [h0, List.range_eq_range']
exact structConstruct_eval_aux p args args.length 0 (by omega)

/-- C7: for a `struct_construct` declaration whose `Type` generic argument
resolves to a composite with fields `fieldS`, the builder emits a callable
taking one argument per field (in field order) whose execution returns the
composite with field `i` holding argument `i`, and registers
`FunctionDef{args: fieldS, return_types: [composite]}` under the normalized
name. -/
theorem struct_construct_correct (decl : LibfuncDeclaration)
    (st : CompilerState) (tid : Nat) (mty : MlirType)
    (fieldS : List SierraType)
    (hargs : decl.genericArgs = [GenericArg.type tid])
    (hty : mapLookup st.storage.types tid =
      some (SierraType.structType mty fieldS)) :
    create_libfunc_struct_construct decl st = Except.ok
      { moduleFuncs := st.moduleFuncs ++
          [{ name := normalize_func_name decl.debugName,
             argTys := fieldS.map SierraType.get_type,
             retTys := [MlirType.structTy (fieldS.map SierraType.get_type)],
             body := structConstructOps
               (fieldS.map SierraType.get_type).length }],
        storage := { st.storage with
          functions := mapInsert st.storage.functions
            (normalize_func_name decl.debugName)
            { args := fieldS,
              return_types := [SierraType.structType mty fieldS] } } } ∧
    ∀ (p : Nat) (args : List SVal),
      args.length = (fieldS.map SierraType.get_type).length →
      evalBody p args
        (structConstructOps (fieldS.map SierraType.get_type).length) [] =
        some [SVal.structV args] := by
constructor
· simp [create_libfunc_struct_construct, hargs, resolveTypeArg, hty,
    SierraType.get_field_types, SierraType.get_field_sierra_types]
· intro p args hlen
  rw [← hlen]
  exact structConstruct_eval p args

/-- C7 witness: the spec's scenario — a composite over two field slots
packing the values 3 and 5 yields field 0 = 3 and field 1 = 5. -/
theorem struct_construct_correct_witness :
    evalBody 7 [SVal.int 8 3, SVal.int 8 5]
      (structConstructOps
        (([exTypeA, exTypeA]).map SierraType.get_type).length) [] =
      some [SVal.structV [SVal.int 8 3, SVal.int 8 5]] :=
(struct_construct_correct exDeclStructCon exState 2
  (MlirType.structTy [MlirType.intTy 8, MlirType.intTy 8]) [exTypeA, exTypeA]
  rfl rfl).2 7 [SVal.int 8 3, SVal.int 8 5] rfl

end Sierra2Mlir

namespace Sierra2Mlir

theorem mapLookup_mapInsert_self {K V : Type} [DecidableEq K]
    (m : List (K × V)) (k : K) (v : V) :
    mapLookup (mapInsert m k v) k = some v := by
induction m with
| nil => simp [mapInsert, mapLookup]
| cons kv rest ih =>
  obtain ⟨k2, v2⟩ := kv
  by_cases h : k2 = k
  · simp [mapInsert, mapLookup, h]
  · simp [mapInsert, mapLookup, h, ih]

/-- C5: the three-way upcast policy.  With both `Type` generic arguments
resolved and both widths available: source narrower than destination —
emit a callable `args=[src] -> [dst]` whose body zero-extends (hence
preserves) its argument and register `FunctionDef{[src], [dst]}`; equal
widths — emit nothing and succeed; source wider — fail fatally with the
"invalid generics for libfunc `upcast`" panic, the spec's
`InvalidGenericArgs` condition. -/
theorem upcast_three_way (decl : LibfuncDeclaration) (st : CompilerState)
    (sid did : Nat) (srcS dstS : SierraType) (w1 w2 : Nat)
    (hargs : decl.genericArgs = [GenericArg.type sid, GenericArg.type did])
    (h1 : mapLookup st.storage.types sid = some srcS)
    (h2 : mapLookup st.storage.types did = some dstS)
    (h3 : srcS.get_type.get_width = some w1)
    (h4 : dstS.get_type.get_width = some w2) :
    (w1 < w2 →
      create_libfunc_upcast decl st = Except.ok
        { moduleFuncs := st.moduleFuncs ++
            [{ name := normalize_func_name decl.debugName,
               argTys := [srcS.get_type],
               retTys := [dstS.get_type],
               body := upcastBodyOps w2 }],
          storage := { st.storage with
            functions := mapInsert st.storage.functions
              (normalize_func_name decl.debugName)
              { args := [srcS], return_types := [dstS] } } } ∧
      ∀ (p v : Nat), v < 2 ^ w1 →
        evalBody p [SVal.int w1 v] (upcastBodyOps w2) [] =
          some [SVal.int w2 v]) ∧
    (w1 = w2 → create_libfunc_upcast decl st = Except.ok st) ∧
    (w2 < w1 →
      create_libfunc_upcast decl st =
        Except.error (Err.panic msgTodoUpcastGenerics)) := by
refine ⟨?_, ?_, ?_⟩
· intro hlt
  have hc : compare w1 w2 = Ordering.lt := by
    rw [Nat.compare_eq_lt]; exact hlt
  constructor
  · simp [create_libfunc_upcast, hargs, h1, h2, h3, h4, hc]
  · intro p v hv
    have hle : (2 : Nat) ^ w1 ≤ 2 ^ w2 :=
      Nat.pow_le_pow_right (by norm_num) (le_of_lt hlt)
    simp [upcastBodyOps, evalBody, evalOp, lookupRef]
    exact Nat.mod_eq_of_lt (lt_of_lt_of_le hv hle)
· intro heq
  have hc : compare w1 w2 = Ordering.eq := by
    rw [Nat.compare_eq_eq]; exact heq
  simp [create_libfunc_upcast, hargs, h1, h2, h3, h4, hc]
· intro hgt
  have hc : compare w1 w2 = Ordering.gt := by
    rw [Nat.compare_eq_gt]; exact hgt
  simp [create_libfunc_upcast, hargs, h1, h2, h3, h4, hc]

/-- C5 witness: the narrowing instance (16-bit source, 8-bit destination)
fails with the invalid-generics panic. -/
theorem upcast_three_way_witness :
    create_libfunc_upcast exDeclUpcastBad exState =
      Except.error (Err.panic msgTodoUpcastGenerics) :=
(upcast_three_way exDeclUpcastBad exState 1 0 exTypeB exTypeA 16 8
  rfl rfl rfl rfl rfl).2.2 (by norm_num)

/-- C10: an equal-width upcast returns `Ok` with the compiler state
unchanged — nothing is appended to the module and no `FunctionDef` is
inserted, so the instance registers no signature at all. -/
theorem upcast_equal_width_frame (decl : LibfuncDeclaration)
    (st : CompilerState) (sid did : Nat) (srcS dstS : SierraType) (w : Nat)
    (hargs : decl.genericArgs = [GenericArg.type sid, GenericArg.type did])
    (h1 : mapLookup st.storage.types sid = some srcS)
    (h2 : mapLookup st.storage.types did = some dstS)
    (h3 : srcS.get_type.get_width = some w)
    (h4 : dstS.get_type.get_width = some w) :
    create_libfunc_upcast decl st = Except.ok st := by
have hc : compare w w = Ordering.eq := by rw [Nat.compare_eq_eq]
simp [create_libfunc_upcast, hargs, h1, h2, h3, h4, hc]

/-- C10 witness: the 8-bit-to-8-bit instance leaves the state untouched. -/
theorem upcast_equal_width_frame_witness :
    create_libfunc_upcast exDeclUpcastEq exState = Except.ok exState :=
upcast_equal_width_frame exDeclUpcastEq exState 0 0 exTypeA exTypeA 8
  rfl rfl rfl rfl rfl

theorem step_unrecognized (fw : Nat) (st : CompilerState)
    (decl : LibfuncDeclaration) (h : decl.genericId ∉ handledNames) :
    processLibfuncStep fw st decl = Except.ok st := by
simp only [handledNames, List.mem_cons, List.not_mem_nil, or_false,
  not_or] at h
obtain ⟨h1, h2, h3, h4, h5, h6, h7, h8, h9, h10, h11, h12, h13, h14, h15,
  h16, h17⟩ := h
simp [processLibfuncStep, h1, h2, h3, h4, h5, h6, h7, h8, h9, h10, h11,
  h12, h13, h14, h15, h16, h17]

/-- C6: a declaration whose generic identity is not among the recognized
names is skipped by the dispatch step without touching the module or any
table, and inserting such a declaration anywhere in the declaration list
leaves the result of `process_libfuncs` (including its `Ok`-ness)
unchanged — an unrecognized identity is never an error. -/
theorem unrecognized_libfunc_skipped (fw : Nat) (st : CompilerState)
    (decl : LibfuncDeclaration) (h : decl.genericId ∉ handledNames) :
    processLibfuncStep fw st decl = Except.ok st ∧
    ∀ (xs ys : List LibfuncDeclaration),
      process_libfuncs fw st (xs ++ decl :: ys) =
        process_libfuncs fw st (xs ++ ys) := by
refine ⟨step_unrecognized fw st decl h, ?_⟩
intro xs
induction xs generalizing st with
| nil =>
  intro ys
  simp only [List.nil_append]
  have hunf : process_libfuncs fw st (decl :: ys) =
      match processLibfuncStep fw st decl with
      | Except.ok st2 => process_libfuncs fw st2 ys
      | Except.error e => Except.error e := rfl
  rw [hunf, step_unrecognized fw st decl h]
| cons x xs ih =>
  intro ys
  simp only [List.cons_append]
  cases hst : processLibfuncStep fw st x with
  | ok st2 => simp [process_libfuncs, hst, ih st2 ys]
  | error e => simp [process_libfuncs, hst]

/-- C6 witness: the unknown identity "frobnicate" is skipped with the state
unchanged. -/
theorem unrecognized_libfunc_skipped_witness :
    processLibfuncStep 4 exState exDeclUnknown = Except.ok exState :=
(unrecognized_libfunc_skipped 4 exState exDeclUnknown (by decide)).1

/-- C8 counterexample: a `felt252_div` declaration does NOT make the build
fail — `process_libfuncs` has no arm for it, so it is logged and skipped
and the pass returns `Ok` with the state unchanged, contradicting the
claim that every field-element division declaration fails the build with
`Unimplemented`. -/
theorem felt_div_decl_is_skipped_not_failed :
    process_libfuncs 4 exState [exDeclFeltDiv] = Except.ok exState := rfl

/-- C8 amended: a field-element division declaration is never dispatched to
a builder — the step skips it, emits nothing and succeeds — while the
binary-op builder itself, if ever invoked with `Div`, fails with the bare
`todo!()` panic (the spec's `Unimplemented` condition) before emitting
anything or touching any table. -/
theorem felt_div_amended :
    (∀ (fw idn : Nat) (args : List GenericArg) (dbg : String)
      (st : CompilerState),
      processLibfuncStep fw st
        { id := idn, genericId := "felt252_div", genericArgs := args,
          debugName := dbg } = Except.ok st) ∧
    ∀ (fw : Nat) (decl : LibfuncDeclaration) (st : CompilerState),
      create_libfunc_felt_binary_op fw decl st BinaryOp.Div =
        Except.error (Err.panic msgTodo) := by
constructor
· intro fw idn args dbg st
  rfl
· intro fw decl st
  rfl

/-- C9 counterexample: processing two `store_temp` declarations whose debug
names collide ends with `Ok` and with the signature table holding the
SECOND `FunctionDef` under the shared name — the first insertion was
silently overwritten and no `DuplicateSignature` error exists,
contradicting the claim. -/
theorem duplicate_signature_overwritten :
    (process_libfuncs 4 exState [exDeclStoreTempA, exDeclStoreTempB]).map
        (fun s => mapLookup s.storage.functions
          (normalize_func_name exDeclStoreTempB.debugName)) =
      Except.ok (some exDefB) ∧
    exDefB ≠ exDefA := by
constructor
· rfl
· intro hcontra
  simp [exDefA, exDefB, exTypeA, exTypeB] at hcontra

/-- C9 amended: the signature table has hash-map insert semantics — a
builder inserting under an already-present normalized name silently
replaces the previous `FunctionDef` and the pass continues with `Ok`;
uniqueness relies on the external name normalization being collision-free,
not on any `DuplicateSignature` check. -/
theorem signature_insert_replaces (decl : LibfuncDeclaration)
    (st : CompilerState) (ty : SierraType) (prev : FunctionDef)
    (hres : resolveTypeArg st.storage decl.genericArgs[0]? = Except.ok ty)
    (hprev : mapLookup st.storage.functions
      (normalize_func_name decl.debugName) = some prev) :
    (create_libfunc_store_temp decl st).map
        (fun s => mapLookup s.storage.functions
          (normalize_func_name decl.debugName)) =
      Except.ok (some { args := [ty], return_types := [ty] }) := by
simp [create_libfunc_store_temp, hres, Except.map]
exact mapLookup_mapInsert_self st.storage.functions
  (normalize_func_name decl.debugName) { args := [ty], return_types := [ty] }

/-- C9 amended witness: with "store_temp&lt;t&gt;" already mapped to the
8-bit signature, a second `store_temp` under the same name replaces it with
the 16-bit signature without error. -/
theorem signature_insert_replaces_witness :
    (create_libfunc_store_temp exDeclStoreTempB exStatePre).map
        (fun s => mapLookup s.storage.functions
          (normalize_func_name exDeclStoreTempB.debugName)) =
      Except.ok (some { args := [exTypeB], return_types := [exTypeB] }) :=
signature_insert_replaces exDeclStoreTempB exStatePre exTypeB exDefA rfl rfl

end Sierra2Mlir
